import Mathlib

/-!
Verification of the synfig pixel-format codec
(`synfig-core/src/synfig/color/pixelformat.h`) and of the
`ValueNode_SegCalcVertex` link interface
(`synfig-core/trunk/src/synfig/valuenode_segcalcvertex.cpp`).

The C++ real type `ColorReal` (a machine float) is modelled by exact
rational arithmetic; machine integers are modelled by `Nat`, with `% 256`
at each `(unsigned char)` truncation of a wider value.  The byte buffer
the codec writes through is modelled as a list of cells: one cell per
written byte, one cell per skipped (uninitialized) byte slot, and one cell
for a verbatim `Color` structure in raw mode (`sizeofColor` bytes wide).
-/

namespace Synfig

abbrev ColorReal := ℚ

/-- The internal canonical color: four real channels (r, g, b, a),
mirroring the `Color` class used by `pixelformat.h`. -/
structure Color where
  r : ColorReal
  g : ColorReal
  b : ColorReal
  a : ColorReal
deriving Repr, DecidableEq

def Color.get_r (c : Color) : ColorReal := c.r

def Color.get_g (c : Color) : ColorReal := c.g

def Color.get_b (c : Color) : ColorReal := c.b

def Color.get_a (c : Color) : ColorReal := c.a

def Color.set_r (c : Color) (x : ColorReal) : Color := { c with r := x }

def Color.set_g (c : Color) (x : ColorReal) : Color := { c with g := x }

def Color.set_b (c : Color) (x : ColorReal) : Color := { c with b := x }

def Color.set_a (c : Color) (x : ColorReal) : Color := { c with a := x }

/-- Modelled from the spec: `color.h` is not part of the sources; the spec
says decoding a gray pixel "sets all of internal luma representation" via
fixed YUV coefficients, and the decoder only ever calls `set_yuv` with zero
chroma, in which case all three color channels equal the luma `y`.  The
chroma arguments are kept for signature fidelity. -/
def Color.set_yuv (c : Color) (y _u _v : ColorReal) : Color :=
  { c with r := y, g := y, b := y }

/-- Modelled from the spec: `Color::demult_alpha` lives in `color.h`, which
is not part of the sources.  The spec says decode "demultiplies back"
(divides R/G/B by the premultiplied alpha) and that "for alpha == 0,
demultiplied color is defined as black (division-by-zero case must not
fault)". -/
def Color.demult_alpha (c : Color) : Color :=
  if c.a = 0 then { c with r := 0, g := 0, b := 0 }
  else { c with r := c.r / c.a, g := c.g / c.a, b := c.b / c.a }

/-- Modelled from the spec: `sizeof(Color)` in bytes — the fixed byte size
of the internal `Color` structure (four 4-byte real channels). -/
def sizeofColor : ℕ := 16

/- PixelFormat bit constants, from the `PixelFormat` enum. -/

def PF_RGB : ℕ := 0

def PF_GRAY : ℕ := 1

def PF_A : ℕ := 2

def PF_Z : ℕ := 4

def PF_BGR : ℕ := 8

def PF_A_START : ℕ := 16

def PF_Z_START : ℕ := 32

def PF_ZA : ℕ := 64

def PF_A_INV : ℕ := 128

def PF_Z_INV : ℕ := 256

def PF_RAW_COLOR : ℕ := 512 + 2

def PF_A_PREMULT : ℕ := 1024

/-- The mask test FLAGS(x,y), that is ((x)&(y))==(y). -/
def FLAGS (x y : ℕ) : Bool := x &&& y == y

/-- The `channels` function: the number of channels the given PixelFormat calls for. -/
def channels (x : ℕ) : ℕ :=
  if FLAGS x PF_RAW_COLOR then sizeofColor
  else
    let chan := if FLAGS x PF_GRAY then 1 else 3
    let chan := if FLAGS x PF_A then chan + 1 else chan
    let chan := if FLAGS x PF_Z then chan + 1 else chan
    chan

/-- The `Gamma` collaborator, reduced to the part the codec uses: three
per-channel real-to-16-bit-integer curves (`r_F32_to_U16` etc.). -/
structure Gamma where
  r_F32_to_U16 : ColorReal → ℕ
  g_F32_to_U16 : ColorReal → ℕ
  b_F32_to_U16 : ColorReal → ℕ

/-- Modelled from the spec: `gamma.h` is not part of the sources.  The
identity curve of `Gamma::no_gamma` converts a real channel to the 16-bit
intermediate range by clamping to `[0,1]` and scaling by `65535.9`,
truncating — the same truncation-with-.9-bias convention the encoder uses
for alpha, and the one matching the spec's examples (channel `1` must emit
the byte `255` after the final `>> 8`). -/
def identityCurve (x : ColorReal) : ℕ :=
  (⌊(max 0 (min 1 x)) * (655359/10 : ColorReal)⌋).toNat

def Gamma.no_gamma : Gamma := ⟨identityCurve, identityCurve, identityCurve⟩

/-- One slot of the output buffer. -/
inductive Cell where
  | byte (value : ℕ)
  | undef
  | rawColor (c : Color)
deriving Repr, DecidableEq

/-- Byte width of a buffer slot: written and skipped bytes are one byte
wide, a raw `Color` structure is `sizeofColor` bytes wide. -/
def Cell.size : Cell → ℕ
  | .byte _ => 1
  | .undef => 1
  | .rawColor _ => sizeofColor

/-- Total byte advance represented by a cell list. -/
def cellsSize (l : List Cell) : ℕ := (l.map Cell.size).sum

/-- Encoder block, `pixelformat.h` lines 117-124: alpha and z-depth slots
emitted before the color channels.  Note the source tests only the
placement bits `PF_A_START` / `PF_Z_START` here, not `PF_A` / `PF_Z`. -/
def writeBefore (pf : ℕ) (ac : ℕ) : List Cell :=
  if FLAGS pf PF_ZA then
    (if FLAGS pf PF_Z_START then [Cell.undef] else []) ++
    (if FLAGS pf PF_A_START then [Cell.byte ac] else [])
  else
    (if FLAGS pf PF_A_START then [Cell.byte ac] else []) ++
    (if FLAGS pf PF_Z_START then [Cell.undef] else [])

/-- Encoder block, `pixelformat.h` lines 126-138: the color channels.
`yuv_r`, `yuv_g`, `yuv_b` are the encoder's static luma coefficients;
modelled from the spec ("fixed YUV luma coefficients" 0.299/0.587/0.114,
`EncodeYUV` itself lives in `color.h`): `(int)(0.299*256) = 76`,
`(int)(0.587*256) = 150`, `256 - 76 - 150 = 30`. -/
def yuv_r : ℕ := 76

def yuv_g : ℕ := 150

def yuv_b : ℕ := 256 - yuv_r - yuv_g

def writeColor (pf : ℕ) (ri gi bi : ℕ) : List Cell :=
  if FLAGS pf PF_GRAY then
    [Cell.byte (((ri * yuv_r + gi * yuv_g + bi * yuv_b) >>> 16) % 256)]
  else if FLAGS pf PF_BGR then
    [Cell.byte ((bi >>> 8) % 256), Cell.byte ((gi >>> 8) % 256),
     Cell.byte ((ri >>> 8) % 256)]
  else
    [Cell.byte ((ri >>> 8) % 256), Cell.byte ((gi >>> 8) % 256),
     Cell.byte ((bi >>> 8) % 256)]

/-- Encoder block, `pixelformat.h` lines 140-147: alpha and z-depth slots
emitted after the color channels. -/
def writeAfter (pf : ℕ) (ac : ℕ) : List Cell :=
  if FLAGS pf PF_ZA then
    (if !FLAGS pf PF_Z_START && FLAGS pf PF_Z then [Cell.undef] else []) ++
    (if !FLAGS pf PF_A_START && FLAGS pf PF_A then [Cell.byte ac] else [])
  else
    (if !FLAGS pf PF_A_START && FLAGS pf PF_A then [Cell.byte ac] else []) ++
    (if !FLAGS pf PF_Z_START && FLAGS pf PF_Z then [Cell.undef] else [])

/-- Encoder `Color2PixelFormat`: encode one color under the descriptor `pf`,
returning the cells written (the write cursor advances by their total byte
size). -/
def Color2PixelFormat (color : Color) (pf : ℕ) (gamma : Gamma) : List Cell :=
  if FLAGS pf PF_RAW_COLOR then
    [Cell.rawColor color]
  else
    -- get alpha value
    let a : ColorReal := max 0 (min 1 color.get_a)
    let ac : ℕ := (⌊a * (2559/10 : ColorReal)⌋).toNat
    let ac : ℕ := if FLAGS pf PF_A_INV then 255 - ac else ac
    -- get color values
    let ri : ℕ := gamma.r_F32_to_U16 color.get_r
    let gi : ℕ := gamma.g_F32_to_U16 color.get_g
    let bi : ℕ := gamma.b_F32_to_U16 color.get_b
    let ri : ℕ := if FLAGS pf PF_A_PREMULT then (ri * (ac + 1)) >>> 8 else ri
    let gi : ℕ := if FLAGS pf PF_A_PREMULT then (gi * (ac + 1)) >>> 8 else gi
    let bi : ℕ := if FLAGS pf PF_A_PREMULT then (bi * (ac + 1)) >>> 8 else bi
    writeBefore pf ac ++ writeColor pf ri gi bi ++ writeAfter pf ac

/-- Read one byte slot off the stream (`*in++`).  A read of a slot that no
byte was written to models a read of unspecified memory; it is represented
as `0` and is never exercised by matched encode/decode pairs. -/
def takeByte (inp : List Cell) : ℕ × List Cell :=
  match inp with
  | Cell.byte n :: rest => (n, rest)
  | _ :: rest => (0, rest)
  | [] => (0, [])

/-- Decoder block, `pixelformat.h` lines 180-187: read alpha and skip
z-depth before the color channels, under the same placement tests as the
encoder. -/
def readBefore (pf : ℕ) (c : Color) (inp : List Cell) : Color × List Cell :=
  if FLAGS pf PF_ZA then
    let inp := if FLAGS pf PF_Z_START then inp.tail else inp
    if FLAGS pf PF_A_START then
      let s := takeByte inp
      (c.set_a ((1/255 : ColorReal) * s.1), s.2)
    else (c, inp)
  else
    if FLAGS pf PF_A_START then
      let s := takeByte inp
      let c := c.set_a ((1/255 : ColorReal) * s.1)
      (c, if FLAGS pf PF_Z_START then s.2.tail else s.2)
    else
      (c, if FLAGS pf PF_Z_START then inp.tail else inp)

/-- Decoder block, `pixelformat.h` lines 189-201: read the color
channels. -/
def readColor (pf : ℕ) (c : Color) (inp : List Cell) : Color × List Cell :=
  if FLAGS pf PF_GRAY then
    let s := takeByte inp
    (c.set_yuv ((1/255 : ColorReal) * s.1) 0 0, s.2)
  else if FLAGS pf PF_BGR then
    let s1 := takeByte inp
    let s2 := takeByte s1.2
    let s3 := takeByte s2.2
    (((c.set_b ((1/255 : ColorReal) * s1.1)).set_g
        ((1/255 : ColorReal) * s2.1)).set_r ((1/255 : ColorReal) * s3.1), s3.2)
  else
    let s1 := takeByte inp
    let s2 := takeByte s1.2
    let s3 := takeByte s2.2
    (((c.set_r ((1/255 : ColorReal) * s1.1)).set_g
        ((1/255 : ColorReal) * s2.1)).set_b ((1/255 : ColorReal) * s3.1), s3.2)

/-- Decoder block, `pixelformat.h` lines 203-210: read alpha and skip
z-depth after the color channels. -/
def readAfter (pf : ℕ) (c : Color) (inp : List Cell) : Color × List Cell :=
  if FLAGS pf PF_ZA then
    let inp := if !FLAGS pf PF_Z_START && FLAGS pf PF_Z then inp.tail else inp
    if !FLAGS pf PF_A_START && FLAGS pf PF_A then
      let s := takeByte inp
      (c.set_a ((1/255 : ColorReal) * s.1), s.2)
    else (c, inp)
  else
    if !FLAGS pf PF_A_START && FLAGS pf PF_A then
      let s := takeByte inp
      let c := c.set_a ((1/255 : ColorReal) * s.1)
      (c, if !FLAGS pf PF_Z_START && FLAGS pf PF_Z then s.2.tail else s.2)
    else
      (c, if !FLAGS pf PF_Z_START && FLAGS pf PF_Z then inp.tail else inp)

/-- Decoder `PixelFormat2Color`: decode one pixel from the stream into `color`
(the decoder's in-out color argument), returning the updated color and the
rest of the stream.  The raw branch reinterprets the next `sizeof(Color)`
bytes as a `Color`; in the cell model that is a `rawColor` cell (a
mismatched raw read of byte cells reinterprets unrelated memory and is
modelled as leaving the color unchanged; it is never exercised by matched
encode/decode pairs). -/
def PixelFormat2Color (color : Color) (pf : ℕ) (inp : List Cell) :
    Color × List Cell :=
  if FLAGS pf PF_RAW_COLOR then
    match inp with
    | Cell.rawColor c :: rest => (c, rest)
    | other => (color, other.tail)
  else
    let s1 := readBefore pf color inp
    let s2 := readColor pf s1.1 s1.2
    let s3 := readAfter pf s2.1 s2.2
    let c := s3.1
    -- invert alpha
    let c := if FLAGS pf PF_A_INV then c.set_a (1 - c.get_a) else c
    -- demult alpha
    let c := if FLAGS pf PF_A_PREMULT then c.demult_alpha else c
    (c, s3.2)

end Synfig

namespace SegCalcVertex

/-- The exceptions thrown by the `ValueNode_SegCalcVertex` link
interface. -/
inductive Exc where
  | BadLinkName (name : String)
deriving Repr, DecidableEq

/-- The method `ValueNode_SegCalcVertex::link_count`. -/
def link_count : ℕ := 2

/-- The method `ValueNode_SegCalcVertex::link_name` (the out-of-range branch returns
the empty `String()`). -/
def link_name (i : ℕ) : String :=
  if i = 0 then "segment"
  else if i = 1 then "amount"
  else ""

/-- The method `ValueNode_SegCalcVertex::get_link_index_from_name`; the throw of
`Exception::BadLinkName` is modelled as `Except.error`. -/
def get_link_index_from_name (name : String) : Except Exc ℕ :=
  if name = "segment" then Except.ok 0
  else if name = "amount" then Except.ok 1
  else Except.error (Exc.BadLinkName name)

end SegCalcVertex

namespace Synfig

/-! Helper lemmas: each decoder block consumes exactly what the matching
encoder block wrote, for every descriptor. -/

theorem readBefore_writeBefore (pf : ℕ) (c0 : Color) (ac : ℕ)
    (rest : List Cell) :
    readBefore pf c0 (writeBefore pf ac ++ rest) =
      (if FLAGS pf PF_A_START then c0.set_a ((1/255 : ColorReal) * ac)
       else c0, rest) := by
  cases hza : FLAGS pf PF_ZA <;> cases hzs : FLAGS pf PF_Z_START <;>
    cases has : FLAGS pf PF_A_START <;>
      simp [readBefore, writeBefore, takeByte, hza, hzs, has]

theorem readColor_writeColor (pf : ℕ) (c1 : Color) (ri gi bi : ℕ)
    (rest : List Cell) :
    readColor pf c1 (writeColor pf ri gi bi ++ rest) =
      (if FLAGS pf PF_GRAY then
        c1.set_yuv ((1/255 : ColorReal) *
          (((ri * yuv_r + gi * yuv_g + bi * yuv_b) >>> 16) % 256 : ℕ)) 0 0
       else
        ((c1.set_r ((1/255 : ColorReal) * ((ri >>> 8) % 256 : ℕ))).set_g
          ((1/255 : ColorReal) * ((gi >>> 8) % 256 : ℕ))).set_b
          ((1/255 : ColorReal) * ((bi >>> 8) % 256 : ℕ)), rest) := by
  cases hg : FLAGS pf PF_GRAY <;> cases hb : FLAGS pf PF_BGR <;>
    simp [readColor, writeColor, takeByte, hg, hb,
      Color.set_r, Color.set_g, Color.set_b]

theorem readAfter_writeAfter (pf : ℕ) (c2 : Color) (ac : ℕ)
    (rest : List Cell) :
    readAfter pf c2 (writeAfter pf ac ++ rest) =
      (if !FLAGS pf PF_A_START && FLAGS pf PF_A then
        c2.set_a ((1/255 : ColorReal) * ac)
       else c2, rest) := by
  cases hza : FLAGS pf PF_ZA <;> cases hzs : FLAGS pf PF_Z_START <;>
    cases has : FLAGS pf PF_A_START <;> cases hz : FLAGS pf PF_Z <;>
      cases ha : FLAGS pf PF_A <;>
        simp [readAfter, writeAfter, takeByte, hza, hzs, has, hz, ha]

/-- Decoding right after encoding, non-raw case: the decoded color as a
function of the encoder's intermediate quantities, with the rest of the
stream untouched. -/
theorem dec_enc (pf : ℕ) (c c0 : Color) (g : Gamma) (rest : List Cell)
    (hraw : FLAGS pf PF_RAW_COLOR = false) :
    PixelFormat2Color c0 pf (Color2PixelFormat c pf g ++ rest) =
      (let ac : ℕ := (⌊(max 0 (min 1 c.a)) * (2559/10 : ColorReal)⌋).toNat
       let ac : ℕ := if FLAGS pf PF_A_INV then 255 - ac else ac
       let ri : ℕ := if FLAGS pf PF_A_PREMULT then
          (g.r_F32_to_U16 c.r * (ac + 1)) >>> 8 else g.r_F32_to_U16 c.r
       let gi : ℕ := if FLAGS pf PF_A_PREMULT then
          (g.g_F32_to_U16 c.g * (ac + 1)) >>> 8 else g.g_F32_to_U16 c.g
       let bi : ℕ := if FLAGS pf PF_A_PREMULT then
          (g.b_F32_to_U16 c.b * (ac + 1)) >>> 8 else g.b_F32_to_U16 c.b
       let c1 : Color := if FLAGS pf PF_A_START then
          c0.set_a ((1/255 : ColorReal) * ac) else c0
       let c2 : Color := if FLAGS pf PF_GRAY then
          c1.set_yuv ((1/255 : ColorReal) *
            (((ri * yuv_r + gi * yuv_g + bi * yuv_b) >>> 16) % 256 : ℕ)) 0 0
        else
          ((c1.set_r ((1/255 : ColorReal) * ((ri >>> 8) % 256 : ℕ))).set_g
            ((1/255 : ColorReal) * ((gi >>> 8) % 256 : ℕ))).set_b
            ((1/255 : ColorReal) * ((bi >>> 8) % 256 : ℕ))
       let c3 : Color := if !FLAGS pf PF_A_START && FLAGS pf PF_A then
          c2.set_a ((1/255 : ColorReal) * ac) else c2
       let c4 : Color := if FLAGS pf PF_A_INV then
          c3.set_a (1 - c3.get_a) else c3
       (if FLAGS pf PF_A_PREMULT then c4.demult_alpha else c4, rest)) := by
  simp only [Color2PixelFormat, PixelFormat2Color, hraw, Bool.false_eq_true,
    if_false, Color.get_a, Color.get_r, Color.get_g, Color.get_b,
    List.append_assoc, readBefore_writeBefore, readColor_writeColor,
    readAfter_writeAfter]

/-! Helper lemmas: quantization arithmetic. -/

theorem clamp_eq (x : ColorReal) (h0 : 0 ≤ x) (h1 : x ≤ 1) :
    max 0 (min 1 x) = x := by
  rw [min_eq_right h1, max_eq_right h0]

theorem ac_le (x : ColorReal) :
    (⌊(max 0 (min 1 x)) * (2559/10 : ColorReal)⌋).toNat ≤ 255 := by
  have hcl0 : (0:ColorReal) ≤ max 0 (min 1 x) := le_max_left 0 _
  have hcl1 : max 0 (min 1 x) ≤ 1 := max_le (by norm_num) (min_le_left 1 x)
  have harg : (max 0 (min 1 x)) * (2559/10 : ColorReal) ≤ 2559/10 := by
    nlinarith
  rw [Int.toNat_le]
  exact le_trans (Int.floor_le_floor harg) (by norm_num)

theorem identityCurve_le (x : ColorReal) : identityCurve x ≤ 65535 := by
  have hcl0 : (0:ColorReal) ≤ max 0 (min 1 x) := le_max_left 0 _
  have hcl1 : max 0 (min 1 x) ≤ 1 := max_le (by norm_num) (min_le_left 1 x)
  have harg : (max 0 (min 1 x)) * (655359/10 : ColorReal) ≤ 655359/10 := by
    nlinarith
  rw [identityCurve, Int.toNat_le]
  exact le_trans (Int.floor_le_floor harg) (by norm_num)

theorem ac_close (x : ColorReal) (h0 : 0 ≤ x) (h1 : x ≤ 1) :
    |(1/255 : ColorReal) * (((⌊x * (2559/10 : ColorReal)⌋).toNat : ℕ) : ColorReal) - x|
      ≤ 1/255 := by
  have hm0 : (0:ℤ) ≤ ⌊x * (2559/10 : ColorReal)⌋ := Int.floor_nonneg.2 (by positivity)
  have hfl : ((⌊x * (2559/10 : ColorReal)⌋ : ℤ) : ColorReal) ≤ x * (2559/10) :=
    Int.floor_le _
  have hfu : x * (2559/10) < ((⌊x * (2559/10 : ColorReal)⌋ : ℤ) : ColorReal) + 1 :=
    Int.lt_floor_add_one _
  have hnq : (((⌊x * (2559/10 : ColorReal)⌋).toNat : ℕ) : ColorReal) =
      ((⌊x * (2559/10 : ColorReal)⌋ : ℤ) : ColorReal) := by
    exact_mod_cast congrArg (Int.cast : ℤ → ColorReal)
      (Int.toNat_of_nonneg hm0)
  rw [abs_le, hnq]
  constructor <;> linarith

theorem byte_close (x : ColorReal) (h0 : 0 ≤ x) (h1 : x ≤ 1) :
    |(1/255 : ColorReal) * (((identityCurve x >>> 8) % 256 : ℕ) : ColorReal) - x|
      ≤ 1/255 := by
  have hcl : max 0 (min 1 x) = x := clamp_eq x h0 h1
  have hid : identityCurve x = (⌊x * (655359/10 : ColorReal)⌋).toNat := by
    rw [identityCurve, hcl]
  have hm0 : (0:ℤ) ≤ ⌊x * (655359/10 : ColorReal)⌋ :=
    Int.floor_nonneg.2 (by positivity)
  have hfl : ((⌊x * (655359/10 : ColorReal)⌋ : ℤ) : ColorReal) ≤ x * (655359/10) :=
    Int.floor_le _
  have hfu : x * (655359/10) <
      ((⌊x * (655359/10 : ColorReal)⌋ : ℤ) : ColorReal) + 1 :=
    Int.lt_floor_add_one _
  have hshift : identityCurve x >>> 8 = identityCurve x / 256 := by
    rw [Nat.shiftRight_eq_div_pow]
  have hle : identityCurve x ≤ 65535 := identityCurve_le x
  have hdm := Nat.div_add_mod (identityCurve x) 256
  have hmlt : identityCurve x % 256 < 256 := Nat.mod_lt _ (by norm_num)
  have hmod : (identityCurve x / 256) % 256 = identityCurve x / 256 :=
    Nat.mod_eq_of_lt (by omega)
  have hA : 256 * (identityCurve x / 256) ≤ identityCurve x := by omega
  have hB : identityCurve x + 1 ≤ 256 * (identityCurve x / 256) + 256 := by omega
  have hnq : ((identityCurve x : ℕ) : ColorReal) =
      ((⌊x * (655359/10 : ColorReal)⌋ : ℤ) : ColorReal) := by
    rw [hid]
    exact_mod_cast congrArg (Int.cast : ℤ → ColorReal)
      (Int.toNat_of_nonneg hm0)
  have hAq : (256:ColorReal) * ((identityCurve x / 256 : ℕ) : ColorReal) ≤
      ((identityCurve x : ℕ) : ColorReal) := by exact_mod_cast hA
  have hBq : ((identityCurve x : ℕ) : ColorReal) + 1 ≤
      256 * ((identityCurve x / 256 : ℕ) : ColorReal) + 256 := by exact_mod_cast hB
  rw [hshift, hmod, abs_le]
  rw [hnq] at hAq hBq
  constructor <;> linarith

theorem inv_alpha_eq (n : ℕ) (h : n ≤ 255) :
    (1 : ColorReal) - (1/255) * ((255 - n : ℕ) : ColorReal) = (1/255) * n := by
  push_cast [Nat.cast_sub h]
  ring

/-! Helper lemmas: the `FLAGS` mask test in terms of single bits. -/

theorem FLAGS_iff (x y : ℕ) :
    FLAGS x y = true ↔ ∀ i, y.testBit i = true → x.testBit i = true := by
  unfold FLAGS
  rw [beq_iff_eq]
  constructor
  · intro h i hi
    have hx := congrArg (fun n => n.testBit i) h
    simp only [Nat.testBit_and, hi, Bool.and_true] at hx
    exact hx
  · intro h
    apply Nat.eq_of_testBit_eq
    intro i
    rw [Nat.testBit_and]
    cases hy : y.testBit i
    · simp
    · simp [h i hy]

theorem FLAGS_pow (x k : ℕ) : FLAGS x (2 ^ k) = x.testBit k := by
  cases hx : x.testBit k
  · cases hf : FLAGS x (2 ^ k)
    · rfl
    · have h1 := (FLAGS_iff x (2 ^ k)).1 hf k Nat.testBit_two_pow_self
      rw [hx] at h1
      exact absurd h1 (by simp)
  · refine (FLAGS_iff x (2 ^ k)).2 fun i hi => ?_
    by_cases hik : k = i
    · rw [← hik]; exact hx
    · rw [Nat.testBit_two_pow_of_ne hik] at hi
      exact absurd hi (by simp)

theorem FLAGS_or_split (x a b : ℕ) :
    FLAGS x (a ||| b) = (FLAGS x a && FLAGS x b) := by
  have key : FLAGS x (a ||| b) = true ↔
      (FLAGS x a = true ∧ FLAGS x b = true) := by
    rw [FLAGS_iff, FLAGS_iff, FLAGS_iff]
    constructor
    · intro h
      refine ⟨fun i hi => h i ?_, fun i hi => h i ?_⟩
      · rw [Nat.testBit_or, hi, Bool.true_or]
      · rw [Nat.testBit_or, hi, Bool.or_true]
    · intro h i hi
      rw [Nat.testBit_or, Bool.or_eq_true] at hi
      rcases hi with h1 | h1
      · exact h.1 i h1
      · exact h.2 i h1
  cases hA : FLAGS x a <;> cases hB : FLAGS x b <;>
    cases hAB : FLAGS x (a ||| b) <;> simp_all

/-- The value of `channels` as a function of the four bits it reads. -/
theorem channels_eq (x : ℕ) :
    channels x = if x.testBit 9 && x.testBit 1 then 16
      else (if x.testBit 0 then 1 else 3) + (if x.testBit 1 then 1 else 0)
        + (if x.testBit 2 then 1 else 0) := by
  have hraw : FLAGS x PF_RAW_COLOR = (x.testBit 9 && x.testBit 1) := by
    have h : PF_RAW_COLOR = 2 ^ 9 ||| 2 ^ 1 := by decide
    rw [h, FLAGS_or_split, FLAGS_pow, FLAGS_pow]
  have hg : FLAGS x PF_GRAY = x.testBit 0 := by
    have h : PF_GRAY = 2 ^ 0 := by decide
    rw [h, FLAGS_pow]
  have ha : FLAGS x PF_A = x.testBit 1 := by
    have h : PF_A = 2 ^ 1 := by decide
    rw [h, FLAGS_pow]
  have hz : FLAGS x PF_Z = x.testBit 2 := by
    have h : PF_Z = 2 ^ 2 := by decide
    rw [h, FLAGS_pow]
  simp only [channels, hraw, hg, ha, hz, sizeofColor]
  cases x.testBit 9 <;> cases x.testBit 0 <;> cases x.testBit 1 <;>
    cases x.testBit 2 <;> norm_num

/-! Claim theorems. -/

/-- C2: encoding any color under `PF_RAW_COLOR` ignores the gamma argument
entirely, and decoding the encoded data under `PF_RAW_COLOR` reproduces
the color exactly, bit-identically, consuming exactly what was written. -/
theorem C2_raw_roundtrip (c c0 : Color) (g g2 : Gamma) (rest : List Cell) :
    Color2PixelFormat c PF_RAW_COLOR g = Color2PixelFormat c PF_RAW_COLOR g2 ∧
    PixelFormat2Color c0 PF_RAW_COLOR
        (Color2PixelFormat c PF_RAW_COLOR g ++ rest) = (c, rest) := by
  have h : FLAGS PF_RAW_COLOR PF_RAW_COLOR = true := by decide
  constructor
  · simp [Color2PixelFormat, h]
  · simp [Color2PixelFormat, PixelFormat2Color, h]

/-- C6: `channels` never decreases when the alpha bit or the depth bit is
OR-ed into a format, and any format passing the raw-color test has
`channels` equal to the fixed internal Color byte size, regardless of all
other bits. -/
theorem C6_channels_monotone (pf : ℕ) :
    (channels pf ≤ channels (pf ||| PF_A) ∧
     channels pf ≤ channels (pf ||| PF_Z)) ∧
    (FLAGS pf PF_RAW_COLOR = true → channels pf = sizeofColor) := by
  refine ⟨⟨?_, ?_⟩, ?_⟩
  · simp only [channels_eq, PF_A, Nat.testBit_or]
    rw [show Nat.testBit 2 9 = false from by decide,
        show Nat.testBit 2 0 = false from by decide,
        show Nat.testBit 2 1 = true from by decide,
        show Nat.testBit 2 2 = false from by decide]
    cases pf.testBit 9 <;> cases pf.testBit 0 <;> cases pf.testBit 1 <;>
      cases pf.testBit 2 <;> norm_num
  · simp only [channels_eq, PF_Z, Nat.testBit_or]
    rw [show Nat.testBit 4 9 = false from by decide,
        show Nat.testBit 4 0 = false from by decide,
        show Nat.testBit 4 1 = false from by decide,
        show Nat.testBit 4 2 = true from by decide]
    cases pf.testBit 9 <;> cases pf.testBit 0 <;> cases pf.testBit 1 <;>
      cases pf.testBit 2 <;> norm_num
  · intro h
    simp [channels, h]

/-- Witness for C6 at the concrete raw format 514, discharging the
raw-flag hypothesis of the second conjunct. -/
theorem C6_channels_monotone_witness :
    FLAGS 514 PF_RAW_COLOR = true ∧ channels 514 = sizeofColor :=
  ⟨by decide, (C6_channels_monotone 514).2 (by decide)⟩

/-- C7: encoding the color (1, 0, 0, 0.5) under RGB with alpha present and
placed first, with identity gamma, yields exactly the four bytes
(alpha, R, G, B) = (127, 255, 0, 0) — alpha is 127, one of the two values
the claim permits. -/
theorem C7_example_alpha_first :
    Color2PixelFormat ⟨1, 0, 0, 1/2⟩ (PF_RGB ||| PF_A ||| PF_A_START)
        Gamma.no_gamma =
      [Cell.byte 127, Cell.byte 255, Cell.byte 0, Cell.byte 0] ∧
    cellsSize [Cell.byte 127, Cell.byte 255, Cell.byte 0, Cell.byte 0] = 4 := by
  constructor
  · have h1 : FLAGS (PF_RGB ||| PF_A ||| PF_A_START) PF_RAW_COLOR = false := by
      decide
    have h2 : FLAGS (PF_RGB ||| PF_A ||| PF_A_START) PF_ZA = false := by decide
    have h3 : FLAGS (PF_RGB ||| PF_A ||| PF_A_START) PF_Z_START = false := by
      decide
    have h4 : FLAGS (PF_RGB ||| PF_A ||| PF_A_START) PF_A_START = true := by
      decide
    have h5 : FLAGS (PF_RGB ||| PF_A ||| PF_A_START) PF_A_INV = false := by
      decide
    have h6 : FLAGS (PF_RGB ||| PF_A ||| PF_A_START) PF_A_PREMULT = false := by
      decide
    have h7 : FLAGS (PF_RGB ||| PF_A ||| PF_A_START) PF_GRAY = false := by decide
    have h8 : FLAGS (PF_RGB ||| PF_A ||| PF_A_START) PF_BGR = false := by decide
    have h9 : FLAGS (PF_RGB ||| PF_A ||| PF_A_START) PF_A = true := by decide
    have h10 : FLAGS (PF_RGB ||| PF_A ||| PF_A_START) PF_Z = false := by decide
    simp only [Color2PixelFormat, writeBefore, writeColor, writeAfter,
      h1, h2, h3, h4, h5, h6, h7, h8, h9, h10, Bool.false_eq_true, if_false,
      if_true, Color.get_a, Color.get_r, Color.get_g, Color.get_b,
      Gamma.no_gamma, identityCurve]
    norm_num [Nat.shiftRight_eq_div_pow]
    decide
  · rfl

/-- C8: for every descriptor (raw, odd bit combinations included) the
decoder consumes exactly the cells the encoder wrote, so encode and decode
advance their cursors in lockstep over a pixel stream. -/
theorem C8_lockstep (pf : ℕ) (c c0 : Color) (g : Gamma) (rest : List Cell) :
    (PixelFormat2Color c0 pf (Color2PixelFormat c pf g ++ rest)).2 = rest := by
  cases hraw : FLAGS pf PF_RAW_COLOR
  · rw [dec_enc pf c c0 g rest hraw]
  · simp [Color2PixelFormat, PixelFormat2Color, hraw]

/-- C9: `PF_RAW_COLOR` is bit 9 combined with the alpha bit, and bit 9
alone (512) does not pass the raw test: `channels`, the encoder and the
decoder all treat it exactly like the ordinary `PF_RGB` layout. -/
theorem C9_raw_needs_alpha_bit :
    PF_RAW_COLOR = 512 ||| PF_A ∧
    FLAGS 512 PF_RAW_COLOR = false ∧
    channels 512 = 3 ∧
    (∀ c g, Color2PixelFormat c 512 g = Color2PixelFormat c PF_RGB g) ∧
    (∀ c0 inp, PixelFormat2Color c0 512 inp =
      PixelFormat2Color c0 PF_RGB inp) := by
  refine ⟨by decide, by decide, by decide, fun c g => ?_, fun c0 inp => ?_⟩
  · simp only [Color2PixelFormat, writeBefore, writeColor, writeAfter,
      show FLAGS 512 PF_RAW_COLOR = false from by decide,
      show FLAGS 512 PF_ZA = false from by decide,
      show FLAGS 512 PF_Z_START = false from by decide,
      show FLAGS 512 PF_A_START = false from by decide,
      show FLAGS 512 PF_A_INV = false from by decide,
      show FLAGS 512 PF_A_PREMULT = false from by decide,
      show FLAGS 512 PF_GRAY = false from by decide,
      show FLAGS 512 PF_BGR = false from by decide,
      show FLAGS 512 PF_A = false from by decide,
      show FLAGS 512 PF_Z = false from by decide,
      show FLAGS PF_RGB PF_RAW_COLOR = false from by decide,
      show FLAGS PF_RGB PF_ZA = false from by decide,
      show FLAGS PF_RGB PF_Z_START = false from by decide,
      show FLAGS PF_RGB PF_A_START = false from by decide,
      show FLAGS PF_RGB PF_A_INV = false from by decide,
      show FLAGS PF_RGB PF_A_PREMULT = false from by decide,
      show FLAGS PF_RGB PF_GRAY = false from by decide,
      show FLAGS PF_RGB PF_BGR = false from by decide,
      show FLAGS PF_RGB PF_A = false from by decide,
      show FLAGS PF_RGB PF_Z = false from by decide]
  · simp only [PixelFormat2Color, readBefore, readColor, readAfter,
      show FLAGS 512 PF_RAW_COLOR = false from by decide,
      show FLAGS 512 PF_ZA = false from by decide,
      show FLAGS 512 PF_Z_START = false from by decide,
      show FLAGS 512 PF_A_START = false from by decide,
      show FLAGS 512 PF_A_INV = false from by decide,
      show FLAGS 512 PF_A_PREMULT = false from by decide,
      show FLAGS 512 PF_GRAY = false from by decide,
      show FLAGS 512 PF_BGR = false from by decide,
      show FLAGS 512 PF_A = false from by decide,
      show FLAGS 512 PF_Z = false from by decide,
      show FLAGS PF_RGB PF_RAW_COLOR = false from by decide,
      show FLAGS PF_RGB PF_ZA = false from by decide,
      show FLAGS PF_RGB PF_Z_START = false from by decide,
      show FLAGS PF_RGB PF_A_START = false from by decide,
      show FLAGS PF_RGB PF_A_INV = false from by decide,
      show FLAGS PF_RGB PF_A_PREMULT = false from by decide,
      show FLAGS PF_RGB PF_GRAY = false from by decide,
      show FLAGS PF_RGB PF_BGR = false from by decide,
      show FLAGS PF_RGB PF_A = false from by decide,
      show FLAGS PF_RGB PF_Z = false from by decide]

/-- C10: `link_count` is 2, `get_link_index_from_name` inverts `link_name`
on indices 0 and 1, and throws `BadLinkName` for every other name. -/
theorem C10_link_interface :
    SegCalcVertex.link_count = 2 ∧
    SegCalcVertex.get_link_index_from_name (SegCalcVertex.link_name 0) =
      Except.ok 0 ∧
    SegCalcVertex.get_link_index_from_name (SegCalcVertex.link_name 1) =
      Except.ok 1 ∧
    (∀ s : String, s ≠ "segment" → s ≠ "amount" →
      SegCalcVertex.get_link_index_from_name s =
        Except.error (SegCalcVertex.Exc.BadLinkName s)) := by
  refine ⟨rfl, rfl, rfl, fun s h1 h2 => ?_⟩
  simp [SegCalcVertex.get_link_index_from_name, h1, h2]

/-- C3 counterexample: for source alpha 0.5 under the plain alpha-present
format, the claim's `round(a * 255.9)` predicts a stored byte of 128
(`round(127.95) = 128`), but the encoder emits 127 (truncation): no cell
of the output holds 128. -/
theorem C3_round_refuted :
    round ((max 0 (min 1 ((1:ColorReal)/2))) * (2559/10 : ColorReal)) = 128 ∧
    Color2PixelFormat ⟨0, 0, 0, 1/2⟩ PF_A Gamma.no_gamma =
      [Cell.byte 0, Cell.byte 0, Cell.byte 0, Cell.byte 127] ∧
    Cell.byte 128 ∉
      [Cell.byte 0, Cell.byte 0, Cell.byte 0, Cell.byte 127] := by
  refine ⟨by norm_num [round_eq], ?_, by decide⟩
  have h1 : FLAGS PF_A PF_RAW_COLOR = false := by decide
  have h2 : FLAGS PF_A PF_ZA = false := by decide
  have h3 : FLAGS PF_A PF_Z_START = false := by decide
  have h4 : FLAGS PF_A PF_A_START = false := by decide
  have h5 : FLAGS PF_A PF_A_INV = false := by decide
  have h6 : FLAGS PF_A PF_A_PREMULT = false := by decide
  have h7 : FLAGS PF_A PF_GRAY = false := by decide
  have h8 : FLAGS PF_A PF_BGR = false := by decide
  have h9 : FLAGS PF_A PF_A = true := by decide
  have h10 : FLAGS PF_A PF_Z = false := by decide
  simp only [Color2PixelFormat, writeBefore, writeColor, writeAfter,
    h1, h2, h3, h4, h5, h6, h7, h8, h9, h10, Bool.false_eq_true, if_false,
    if_true, Color.get_a, Color.get_r, Color.get_g, Color.get_b,
    Gamma.no_gamma, identityCurve]
  norm_num [Nat.shiftRight_eq_div_pow]
  decide

/-- C3 (amended): the encoder computes the stored 8-bit alpha value by
clamping the source alpha to [0,1] and truncating `a * 255.9` (truncation
toward zero, not rounding to nearest), then replaces it by 255 minus that
value when the alpha-inversion bit is set; whenever the alpha bit is
present that byte is emitted. -/
theorem C3_alpha_truncation (pf : ℕ) (c : Color) (g : Gamma)
    (hraw : FLAGS pf PF_RAW_COLOR = false) (ha : FLAGS pf PF_A = true) :
    Cell.byte (if FLAGS pf PF_A_INV then
        255 - (⌊(max 0 (min 1 c.a)) * (2559/10 : ColorReal)⌋).toNat
      else (⌊(max 0 (min 1 c.a)) * (2559/10 : ColorReal)⌋).toNat)
      ∈ Color2PixelFormat c pf g := by
  simp only [Color2PixelFormat, hraw, Bool.false_eq_true, if_false,
    Color.get_a]
  cases hza : FLAGS pf PF_ZA <;> cases hzs : FLAGS pf PF_Z_START <;>
    cases has : FLAGS pf PF_A_START <;> cases hinv : FLAGS pf PF_A_INV <;>
      simp [writeBefore, writeAfter, hza, hzs, has, hinv, ha,
        List.mem_append]

/-- Witness for C3 at the plain alpha format and alpha 0.5: the emitted
alpha byte is the truncated value 127. -/
theorem C3_alpha_truncation_witness :
    FLAGS PF_A PF_RAW_COLOR = false ∧ FLAGS PF_A PF_A = true ∧
    Cell.byte (if FLAGS PF_A PF_A_INV then
        255 - (⌊(max 0 (min 1 ((1:ColorReal)/2))) * (2559/10 : ColorReal)⌋).toNat
      else (⌊(max 0 (min 1 ((1:ColorReal)/2))) * (2559/10 : ColorReal)⌋).toNat)
      ∈ Color2PixelFormat ⟨0, 0, 0, 1/2⟩ PF_A Gamma.no_gamma :=
  ⟨by decide, by decide,
    C3_alpha_truncation PF_A ⟨0, 0, 0, 1/2⟩ Gamma.no_gamma
      (by decide) (by decide)⟩

/-- C4 counterexample: under the descriptor consisting only of the
depth-placement bit `PF_Z_START` (depth-before-color, depth-present bit
clear) the encoder emits four cells — a skipped depth slot plus three
color bytes — advancing the write cursor by 4 bytes, while
`channels` is 3. -/
theorem C4_extra_slot :
    cellsSize (Color2PixelFormat ⟨0, 0, 0, 0⟩ PF_Z_START Gamma.no_gamma) = 4 ∧
    channels PF_Z_START = 3 := by
  constructor
  · have h1 : FLAGS PF_Z_START PF_RAW_COLOR = false := by decide
    have h2 : FLAGS PF_Z_START PF_ZA = false := by decide
    have h3 : FLAGS PF_Z_START PF_Z_START = true := by decide
    have h4 : FLAGS PF_Z_START PF_A_START = false := by decide
    have h7 : FLAGS PF_Z_START PF_GRAY = false := by decide
    have h8 : FLAGS PF_Z_START PF_BGR = false := by decide
    have h9 : FLAGS PF_Z_START PF_A = false := by decide
    have h10 : FLAGS PF_Z_START PF_Z = false := by decide
    simp [Color2PixelFormat, writeBefore, writeColor, writeAfter, cellsSize,
      Cell.size, h1, h2, h3, h4, h7, h8, h9, h10]
  · decide

theorem cellsSize_append (l1 l2 : List Cell) :
    cellsSize (l1 ++ l2) = cellsSize l1 + cellsSize l2 := by
  simp [cellsSize]

theorem size_writeBefore (pf ac : ℕ) :
    cellsSize (writeBefore pf ac) =
      (if FLAGS pf PF_Z_START then 1 else 0) +
      (if FLAGS pf PF_A_START then 1 else 0) := by
  cases hza : FLAGS pf PF_ZA <;> cases hzs : FLAGS pf PF_Z_START <;>
    cases has : FLAGS pf PF_A_START <;>
      simp [writeBefore, cellsSize, Cell.size, hza, hzs, has]

theorem size_writeColor (pf ri gi bi : ℕ) :
    cellsSize (writeColor pf ri gi bi) =
      if FLAGS pf PF_GRAY then 1 else 3 := by
  cases hg : FLAGS pf PF_GRAY <;> cases hbgr : FLAGS pf PF_BGR <;>
    simp [writeColor, cellsSize, Cell.size, hg, hbgr]

theorem size_writeAfter (pf ac : ℕ) :
    cellsSize (writeAfter pf ac) =
      (if !FLAGS pf PF_Z_START && FLAGS pf PF_Z then 1 else 0) +
      (if !FLAGS pf PF_A_START && FLAGS pf PF_A then 1 else 0) := by
  cases hza : FLAGS pf PF_ZA <;> cases hzs : FLAGS pf PF_Z_START <;>
    cases has : FLAGS pf PF_A_START <;> cases hz : FLAGS pf PF_Z <;>
      cases ha : FLAGS pf PF_A <;>
        simp [writeAfter, cellsSize, Cell.size, hza, hzs, has, hz, ha]

/-- C4 (amended): for non-raw descriptors the encoder advances by
`channels(pf)` plus one extra byte for each placement-start bit whose
present bit is clear (the alpha byte, or a skipped depth slot, is still
emitted in that case); the advance equals `channels(pf)` exactly when each
start bit implies its present bit.  Raw descriptors advance by exactly
`channels(pf)`. -/
theorem C4_cursor_advance (pf : ℕ) (c : Color) (g : Gamma) :
    (FLAGS pf PF_RAW_COLOR = false →
      cellsSize (Color2PixelFormat c pf g) =
        channels pf +
          (if FLAGS pf PF_A_START = true ∧ FLAGS pf PF_A = false
            then 1 else 0) +
          (if FLAGS pf PF_Z_START = true ∧ FLAGS pf PF_Z = false
            then 1 else 0)) ∧
    (FLAGS pf PF_RAW_COLOR = true →
      cellsSize (Color2PixelFormat c pf g) = channels pf) := by
  constructor
  · intro hraw
    simp only [Color2PixelFormat, channels, hraw, Bool.false_eq_true,
      if_false, cellsSize_append, size_writeBefore, size_writeColor,
      size_writeAfter]
    cases hg : FLAGS pf PF_GRAY <;> cases hzs : FLAGS pf PF_Z_START <;>
      cases has : FLAGS pf PF_A_START <;> cases hz : FLAGS pf PF_Z <;>
        cases ha : FLAGS pf PF_A <;> simp [hg, hzs, has, hz, ha]
  · intro hraw
    simp [Color2PixelFormat, channels, cellsSize, Cell.size, hraw]

/-- Witness for C4 at the descriptor with the alpha-placement bit but no
alpha bit: the advance is channels + 1. -/
theorem C4_cursor_advance_witness :
    FLAGS PF_A_START PF_RAW_COLOR = false ∧
    cellsSize (Color2PixelFormat ⟨0, 0, 0, 0⟩ PF_A_START Gamma.no_gamma) =
      channels PF_A_START +
        (if FLAGS PF_A_START PF_A_START = true ∧ FLAGS PF_A_START PF_A = false
          then 1 else 0) +
        (if FLAGS PF_A_START PF_Z_START = true ∧ FLAGS PF_A_START PF_Z = false
          then 1 else 0) :=
  ⟨by decide,
    (C4_cursor_advance PF_A_START ⟨0, 0, 0, 0⟩ Gamma.no_gamma).1 (by decide)⟩

/-- C1 counterexample: the descriptor `PF_A ||| PF_A_PREMULT` is non-raw
and the color (3/5, 0, 0, 1/200) has all channels in [0,1], yet decoding
the encoding of its represented red channel yields 1, off by 2/5 > 1/255:
premultiplication by a small alpha destroys the claimed bound. -/
theorem C1_premult_refuted :
    FLAGS (PF_A ||| PF_A_PREMULT) PF_RAW_COLOR = false ∧
    FLAGS (PF_A ||| PF_A_PREMULT) PF_GRAY = false ∧
    (PixelFormat2Color ⟨0, 0, 0, 0⟩ (PF_A ||| PF_A_PREMULT)
        (Color2PixelFormat ⟨3/5, 0, 0, 1/200⟩ (PF_A ||| PF_A_PREMULT)
          Gamma.no_gamma)).1.r = 1 ∧
    ¬(|(1 : ColorReal) - 3/5| ≤ 1/255) := by
  refine ⟨by decide, by decide, ?_, by norm_num [abs_le]⟩
  have h1 : FLAGS (PF_A ||| PF_A_PREMULT) PF_RAW_COLOR = false := by decide
  have h2 : FLAGS (PF_A ||| PF_A_PREMULT) PF_ZA = false := by decide
  have h3 : FLAGS (PF_A ||| PF_A_PREMULT) PF_Z_START = false := by decide
  have h4 : FLAGS (PF_A ||| PF_A_PREMULT) PF_A_START = false := by decide
  have h5 : FLAGS (PF_A ||| PF_A_PREMULT) PF_A_INV = false := by decide
  have h6 : FLAGS (PF_A ||| PF_A_PREMULT) PF_A_PREMULT = true := by decide
  have h7 : FLAGS (PF_A ||| PF_A_PREMULT) PF_GRAY = false := by decide
  have h8 : FLAGS (PF_A ||| PF_A_PREMULT) PF_BGR = false := by decide
  have h9 : FLAGS (PF_A ||| PF_A_PREMULT) PF_A = true := by decide
  have h10 : FLAGS (PF_A ||| PF_A_PREMULT) PF_Z = false := by decide
  simp only [Color2PixelFormat, PixelFormat2Color, writeBefore, writeColor,
    writeAfter, readBefore, readColor, readAfter, takeByte,
    h1, h2, h3, h4, h5, h6, h7, h8, h9, h10, Bool.false_eq_true, if_false,
    if_true, Color.get_a, Color.get_r, Color.get_g, Color.get_b,
    Color.set_a, Color.set_r, Color.set_g, Color.set_b, Color.set_yuv,
    Color.demult_alpha, Gamma.no_gamma, identityCurve]
  norm_num [Nat.shiftRight_eq_div_pow]
  decide

/-- C1 (amended): for every color with all four channels in [0,1] and
every descriptor that is neither raw nor premultiplied-alpha, decoding the
encoding under the identity gamma reproduces each channel represented by
the descriptor within one quantization step (1/255): the three color
channels whenever the gray bit is clear, and alpha whenever the alpha bit
is set.  (The premultiplied case must be excluded: see the
counterexample.) -/
theorem C1_roundtrip (pf : ℕ) (c c0 : Color)
    (hraw : FLAGS pf PF_RAW_COLOR = false)
    (hpm : FLAGS pf PF_A_PREMULT = false)
    (hr0 : 0 ≤ c.r) (hr1 : c.r ≤ 1) (hg0 : 0 ≤ c.g) (hg1 : c.g ≤ 1)
    (hb0 : 0 ≤ c.b) (hb1 : c.b ≤ 1) (ha0 : 0 ≤ c.a) (ha1 : c.a ≤ 1) :
    (FLAGS pf PF_GRAY = false →
      |(PixelFormat2Color c0 pf
          (Color2PixelFormat c pf Gamma.no_gamma)).1.r - c.r| ≤ 1/255 ∧
      |(PixelFormat2Color c0 pf
          (Color2PixelFormat c pf Gamma.no_gamma)).1.g - c.g| ≤ 1/255 ∧
      |(PixelFormat2Color c0 pf
          (Color2PixelFormat c pf Gamma.no_gamma)).1.b - c.b| ≤ 1/255) ∧
    (FLAGS pf PF_A = true →
      |(PixelFormat2Color c0 pf
          (Color2PixelFormat c pf Gamma.no_gamma)).1.a - c.a| ≤ 1/255) := by
  have hd := dec_enc pf c c0 Gamma.no_gamma [] hraw
  rw [List.append_nil] at hd
  rw [hd]
  have hacle : (⌊c.a * (2559/10 : ColorReal)⌋).toNat ≤ 255 := by
    have h := ac_le c.a
    rwa [clamp_eq c.a ha0 ha1] at h
  simp only [hpm, Bool.false_eq_true, if_false, Gamma.no_gamma]
  rw [clamp_eq c.a ha0 ha1]
  constructor
  · intro hgray
    cases has : FLAGS pf PF_A_START <;> cases ha : FLAGS pf PF_A <;>
      cases hinv : FLAGS pf PF_A_INV <;>
        simp only [has, ha, hinv, hgray, Bool.false_eq_true, if_false,
          if_true, Bool.not_false, Bool.not_true, Bool.true_and,
          Bool.false_and, Bool.and_true, Bool.and_false, Color.set_a,
          Color.set_r, Color.set_g, Color.set_b, Color.get_a] <;>
          exact ⟨byte_close c.r hr0 hr1, byte_close c.g hg0 hg1,
            byte_close c.b hb0 hb1⟩
  · intro ha
    cases has : FLAGS pf PF_A_START <;> cases hgray : FLAGS pf PF_GRAY <;>
      cases hinv : FLAGS pf PF_A_INV <;>
        simp only [ha, has, hgray, hinv, Bool.false_eq_true, if_false,
          if_true, Bool.not_false, Bool.not_true, Bool.true_and,
          Bool.false_and, Bool.and_true, Bool.and_false, Color.set_a,
          Color.set_r, Color.set_g, Color.set_b, Color.set_yuv,
          Color.get_a] <;>
        first
        | exact ac_close c.a ha0 ha1
        | (rw [inv_alpha_eq _ hacle]; exact ac_close c.a ha0 ha1)

/-- Witness for C1 at the plain alpha-present format and the color
(1/2, 0, 1, 1/3). -/
theorem C1_roundtrip_witness :
    FLAGS PF_A PF_RAW_COLOR = false ∧ FLAGS PF_A PF_A_PREMULT = false ∧
    ((0:ColorReal) ≤ 1/2 ∧ (1/2:ColorReal) ≤ 1) ∧
    ((0:ColorReal) ≤ 0 ∧ (0:ColorReal) ≤ 1) ∧
    ((0:ColorReal) ≤ 1 ∧ (1:ColorReal) ≤ 1) ∧
    ((0:ColorReal) ≤ 1/3 ∧ (1/3:ColorReal) ≤ 1) ∧
    ((FLAGS PF_A PF_GRAY = false →
      |(PixelFormat2Color ⟨0, 0, 0, 0⟩ PF_A
          (Color2PixelFormat ⟨1/2, 0, 1, 1/3⟩ PF_A Gamma.no_gamma)).1.r
        - (1/2 : ColorReal)| ≤ 1/255 ∧
      |(PixelFormat2Color ⟨0, 0, 0, 0⟩ PF_A
          (Color2PixelFormat ⟨1/2, 0, 1, 1/3⟩ PF_A Gamma.no_gamma)).1.g
        - (0 : ColorReal)| ≤ 1/255 ∧
      |(PixelFormat2Color ⟨0, 0, 0, 0⟩ PF_A
          (Color2PixelFormat ⟨1/2, 0, 1, 1/3⟩ PF_A Gamma.no_gamma)).1.b
        - (1 : ColorReal)| ≤ 1/255) ∧
    (FLAGS PF_A PF_A = true →
      |(PixelFormat2Color ⟨0, 0, 0, 0⟩ PF_A
          (Color2PixelFormat ⟨1/2, 0, 1, 1/3⟩ PF_A Gamma.no_gamma)).1.a
        - (1/3 : ColorReal)| ≤ 1/255)) :=
  ⟨by decide, by decide, ⟨by norm_num, by norm_num⟩, ⟨by norm_num, by norm_num⟩,
    ⟨by norm_num, by norm_num⟩, ⟨by norm_num, by norm_num⟩,
    C1_roundtrip PF_A ⟨1/2, 0, 1, 1/3⟩ ⟨0, 0, 0, 0⟩ (by decide) (by decide)
      (by norm_num) (by norm_num) (by norm_num) (by norm_num)
      (by norm_num) (by norm_num) (by norm_num) (by norm_num)⟩

theorem demult_alpha_one (r g b : ColorReal) :
    Color.demult_alpha ⟨r, g, b, 1⟩ = ⟨r, g, b, 1⟩ := by
  simp [Color.demult_alpha]

/-- C5 counterexample: under `PF_A ||| PF_A_PREMULT`, the color
(3/5, 0, 0, 1/100) has alpha strictly greater than 0, yet the decoded
demultiplied red channel is 1/2, off from 3/5 by 1/10 > 1/255: the
premultiplication quantization error grows like 1/(stored alpha). -/
theorem C5_small_alpha_refuted :
    FLAGS (PF_A ||| PF_A_PREMULT) PF_A_PREMULT = true ∧
    (0 : ColorReal) < 1/100 ∧
    (PixelFormat2Color ⟨0, 0, 0, 0⟩ (PF_A ||| PF_A_PREMULT)
        (Color2PixelFormat ⟨3/5, 0, 0, 1/100⟩ (PF_A ||| PF_A_PREMULT)
          Gamma.no_gamma)).1.r = 1/2 ∧
    ¬(|(1/2 : ColorReal) - 3/5| ≤ 1/255) := by
  refine ⟨by decide, by norm_num, ?_, by norm_num [abs_le]⟩
  have h1 : FLAGS (PF_A ||| PF_A_PREMULT) PF_RAW_COLOR = false := by decide
  have h2 : FLAGS (PF_A ||| PF_A_PREMULT) PF_ZA = false := by decide
  have h3 : FLAGS (PF_A ||| PF_A_PREMULT) PF_Z_START = false := by decide
  have h4 : FLAGS (PF_A ||| PF_A_PREMULT) PF_A_START = false := by decide
  have h5 : FLAGS (PF_A ||| PF_A_PREMULT) PF_A_INV = false := by decide
  have h6 : FLAGS (PF_A ||| PF_A_PREMULT) PF_A_PREMULT = true := by decide
  have h7 : FLAGS (PF_A ||| PF_A_PREMULT) PF_GRAY = false := by decide
  have h8 : FLAGS (PF_A ||| PF_A_PREMULT) PF_BGR = false := by decide
  have h9 : FLAGS (PF_A ||| PF_A_PREMULT) PF_A = true := by decide
  have h10 : FLAGS (PF_A ||| PF_A_PREMULT) PF_Z = false := by decide
  simp only [Color2PixelFormat, PixelFormat2Color, writeBefore, writeColor,
    writeAfter, readBefore, readColor, readAfter, takeByte,
    h1, h2, h3, h4, h5, h6, h7, h8, h9, h10, Bool.false_eq_true, if_false,
    if_true, Color.get_a, Color.get_r, Color.get_g, Color.get_b,
    Color.set_a, Color.set_r, Color.set_g, Color.set_b, Color.set_yuv,
    Color.demult_alpha, Gamma.no_gamma, identityCurve]
  norm_num [Nat.shiftRight_eq_div_pow, show Int.toNat 39321 = 39321 from rfl,
    show Int.toNat 2 = 2 from rfl]

/-- C5 (amended): for a non-raw, non-gray descriptor with the
premultiplied-alpha and alpha bits set and alpha inversion clear:
(i) when the source alpha is high enough that the stored alpha byte is 255
(alpha ≥ 2550/2559), encoding then decoding demultiplies R/G/B back to
within one quantization step (1/255) of the original — for smaller
positive alphas the error can be as large as about 1/(stored alpha), see
the counterexample; (ii) when alpha is 0 the decoded (demultiplied) color
is black — R, G and B all zero — and decoding does not fault on the
division by zero. -/
theorem C5_premult_roundtrip (pf : ℕ) (c c0 : Color)
    (hraw : FLAGS pf PF_RAW_COLOR = false)
    (hpm : FLAGS pf PF_A_PREMULT = true)
    (ha : FLAGS pf PF_A = true)
    (hgray : FLAGS pf PF_GRAY = false)
    (hinv : FLAGS pf PF_A_INV = false)
    (hr0 : 0 ≤ c.r) (hr1 : c.r ≤ 1) (hg0 : 0 ≤ c.g) (hg1 : c.g ≤ 1)
    (hb0 : 0 ≤ c.b) (hb1 : c.b ≤ 1) :
    ((2550/2559 : ColorReal) ≤ c.a → c.a ≤ 1 →
      |(PixelFormat2Color c0 pf
          (Color2PixelFormat c pf Gamma.no_gamma)).1.r - c.r| ≤ 1/255 ∧
      |(PixelFormat2Color c0 pf
          (Color2PixelFormat c pf Gamma.no_gamma)).1.g - c.g| ≤ 1/255 ∧
      |(PixelFormat2Color c0 pf
          (Color2PixelFormat c pf Gamma.no_gamma)).1.b - c.b| ≤ 1/255) ∧
    (c.a = 0 →
      (PixelFormat2Color c0 pf
          (Color2PixelFormat c pf Gamma.no_gamma)).1.r = 0 ∧
      (PixelFormat2Color c0 pf
          (Color2PixelFormat c pf Gamma.no_gamma)).1.g = 0 ∧
      (PixelFormat2Color c0 pf
          (Color2PixelFormat c pf Gamma.no_gamma)).1.b = 0) := by
  have hd := dec_enc pf c c0 Gamma.no_gamma [] hraw
  rw [List.append_nil] at hd
  rw [hd]
  simp only [hpm, hinv, ha, hgray, Bool.false_eq_true, if_false, if_true,
    Bool.and_true, Gamma.no_gamma]
  constructor
  · intro haL haU
    have hcl : max 0 (min 1 c.a) = c.a :=
      clamp_eq c.a (le_trans (by norm_num) haL) haU
    rw [hcl]
    have hfloor : ⌊c.a * (2559/10 : ColorReal)⌋ = 255 := by
      rw [Int.floor_eq_iff]
      constructor
      · push_cast
        nlinarith
      · push_cast
        nlinarith
    rw [hfloor]
    simp only [show (255 : ℤ).toNat = 255 from rfl]
    have hsh : ∀ n : ℕ, (n * (255 + 1)) >>> 8 = n := by
      intro n
      rw [Nat.shiftRight_eq_div_pow, show (2:ℕ) ^ 8 = 256 from by norm_num]
      omega
    have h255 : (1/255 : ColorReal) * ((255 : ℕ) : ColorReal) = 1 := by
      norm_num
    cases has : FLAGS pf PF_A_START <;>
      simp only [has, hsh, h255, Bool.false_eq_true, if_false, if_true,
        Bool.not_false, Bool.not_true, Color.set_a, Color.set_r, Color.set_g,
        Color.set_b, Color.get_a, demult_alpha_one] <;>
      exact ⟨byte_close c.r hr0 hr1, byte_close c.g hg0 hg1,
        byte_close c.b hb0 hb1⟩
  · intro ha0
    have hcl0 : max 0 (min 1 (0 : ColorReal)) = 0 := by norm_num
    have hfl0 : (⌊(0 : ColorReal) * (2559/10 : ColorReal)⌋).toNat = 0 := by
      norm_num
    have hz16 : ∀ n : ℕ, n ≤ 65535 → ((n * (0 + 1)) >>> 8) >>> 8 % 256 = 0 := by
      intro n hn
      rw [Nat.shiftRight_eq_div_pow, Nat.shiftRight_eq_div_pow,
        show (2:ℕ) ^ 8 = 256 from by norm_num]
      omega
    cases has : FLAGS pf PF_A_START <;>
      simp only [ha0, hcl0, hfl0, has, Bool.false_eq_true, if_false, if_true,
        Bool.not_false, Bool.not_true, Color.set_a, Color.set_r, Color.set_g,
        Color.set_b, Color.get_a,
        hz16 (identityCurve c.r) (identityCurve_le c.r),
        hz16 (identityCurve c.g) (identityCurve_le c.g),
        hz16 (identityCurve c.b) (identityCurve_le c.b)] <;>
      norm_num [Color.demult_alpha]

/-- Witness for C5 at the plain premultiplied format and the opaque color
(1/2, 0, 1, 1). -/
theorem C5_premult_roundtrip_witness :
    FLAGS (PF_A ||| PF_A_PREMULT) PF_RAW_COLOR = false ∧
    FLAGS (PF_A ||| PF_A_PREMULT) PF_A_PREMULT = true ∧
    FLAGS (PF_A ||| PF_A_PREMULT) PF_A = true ∧
    FLAGS (PF_A ||| PF_A_PREMULT) PF_GRAY = false ∧
    FLAGS (PF_A ||| PF_A_PREMULT) PF_A_INV = false ∧
    (((2550/2559 : ColorReal) ≤ (1 : ColorReal) → (1 : ColorReal) ≤ 1 →
      |(PixelFormat2Color ⟨0, 0, 0, 0⟩ (PF_A ||| PF_A_PREMULT)
          (Color2PixelFormat ⟨1/2, 0, 1, 1⟩ (PF_A ||| PF_A_PREMULT)
            Gamma.no_gamma)).1.r - (1/2 : ColorReal)| ≤ 1/255 ∧
      |(PixelFormat2Color ⟨0, 0, 0, 0⟩ (PF_A ||| PF_A_PREMULT)
          (Color2PixelFormat ⟨1/2, 0, 1, 1⟩ (PF_A ||| PF_A_PREMULT)
            Gamma.no_gamma)).1.g - (0 : ColorReal)| ≤ 1/255 ∧
      |(PixelFormat2Color ⟨0, 0, 0, 0⟩ (PF_A ||| PF_A_PREMULT)
          (Color2PixelFormat ⟨1/2, 0, 1, 1⟩ (PF_A ||| PF_A_PREMULT)
            Gamma.no_gamma)).1.b - (1 : ColorReal)| ≤ 1/255) ∧
    ((1 : ColorReal) = 0 →
      (PixelFormat2Color ⟨0, 0, 0, 0⟩ (PF_A ||| PF_A_PREMULT)
          (Color2PixelFormat ⟨1/2, 0, 1, 1⟩ (PF_A ||| PF_A_PREMULT)
            Gamma.no_gamma)).1.r = 0 ∧
      (PixelFormat2Color ⟨0, 0, 0, 0⟩ (PF_A ||| PF_A_PREMULT)
          (Color2PixelFormat ⟨1/2, 0, 1, 1⟩ (PF_A ||| PF_A_PREMULT)
            Gamma.no_gamma)).1.g = 0 ∧
      (PixelFormat2Color ⟨0, 0, 0, 0⟩ (PF_A ||| PF_A_PREMULT)
          (Color2PixelFormat ⟨1/2, 0, 1, 1⟩ (PF_A ||| PF_A_PREMULT)
            Gamma.no_gamma)).1.b = 0)) :=
  ⟨by decide, by decide, by decide, by decide, by decide,
    C5_premult_roundtrip (PF_A ||| PF_A_PREMULT) ⟨1/2, 0, 1, 1⟩ ⟨0, 0, 0, 0⟩
      (by decide) (by decide) (by decide) (by decide) (by decide)
      (by norm_num) (by norm_num) (by norm_num) (by norm_num)
      (by norm_num) (by norm_num)⟩

/-- Witness for C10 at the concrete bad name "vertex". -/
theorem C10_link_interface_witness :
    ("vertex" : String) ≠ "segment" ∧ ("vertex" : String) ≠ "amount" ∧
    SegCalcVertex.get_link_index_from_name "vertex" =
      Except.error (SegCalcVertex.Exc.BadLinkName "vertex") :=
  ⟨by decide, by decide,
    C10_link_interface.2.2.2 "vertex" (by decide) (by decide)⟩

end Synfig
